import Mathlib

/-!
# swf-zopfli: the SWF recompression job and its batch driver

A shallow embedding of `src/swf-zopfli.c` (`LoadFile`, `SWFHeader`,
`CompressFile`, `AddStrings`, `main`) and the properties of it that the
specification states.

Modelling conventions

* A byte is a natural number; a well-formed byte is below 256.
* `size_t` is `Nat` reduced modulo `2 ^ sizeBits`; the width is a field of
  the environment, so every theorem holds for 32- and 64-bit targets alike.
* The collaborators that the source only calls (`malloc`, `mz_uncompress`,
  `mz_error`, `ZlibCompress`, `InitOptions`) are fields of `Env`.
* Memory reads are bounds checked: `readBytes` answers `none` when the
  region leaves the readable block, and the job then ends in
  `Status.outOfBounds`.  The buffer that `LoadFile` returns is followed in
  memory by `Env.slack`, the bytes that a read past its end still reaches.
* The file system is a `World`: the files that `LoadFile` loads, the other
  paths that `fopen(path, "rb")` opens (a directory), and the paths that
  `fopen(path, "wb")` can open.  Once a file is open for writing, `fwrite`
  and `fclose` are taken to succeed, as the source takes them (it ignores
  their results).
* A failed `malloc` is the empty block.  `LoadFile` then hands back a null
  buffer together with a non-zero size, and `AddStrings` ends the process
  with `exit(-1)`.
-/

namespace SwfZopfli

/-- One octet of a file or of memory. -/
abbrev Byte := Nat

/-- ASCII code of the character F, the signature of an uncompressed SWF. -/
def chF : Byte := 0x46

/-- ASCII code of the character C, the signature of a zlib-compressed SWF. -/
def chC : Byte := 0x43

/-- The value of `sizeof(SWFHeader)`: the structure is packed, 3 + 1 + 4 bytes. -/
def sizeofSWFHeader : Nat := 8

/-- The miniz status code for success. -/
def MZ_OK : Int := 0

/-- The two fields of the zopfli `Options` record that `main` assigns. -/
structure Options where
  verbose : Nat
  numiterations : Nat
deriving DecidableEq, Repr

/-- What `mz_uncompress(pDest, pDest_len, pSource, source_len)` leaves behind:
its return value, the value it stored in `*pDest_len`, and the contents of
the destination block after the call. -/
structure MzResult where
  ret : Int
  destLen : Nat
  dest : List Byte
deriving DecidableEq, Repr

/-- The target and the collaborators the program is linked against. -/
structure Env where
  /-- Width of `size_t` in bits. -/
  sizeBits : Nat
  /-- Host byte order, which decides how the four `fileLength` bytes read as an `unsigned int`. -/
  littleEndian : Bool
  /-- Bytes lying in memory right behind a buffer that `LoadFile` returned:
  what a read past the end of the buffer observes. -/
  slack : List Byte
  /-- The block `malloc(n)` returns; the empty block stands for `NULL`. -/
  malloc : Nat → List Byte
  /-- The miniz decompressor: destination block, `*pDest_len`, source bytes. -/
  mz_uncompress : List Byte → Nat → List Byte → MzResult
  /-- The text miniz gives for a status code. -/
  mz_error : Int → String
  /-- The zopfli zlib compressor. -/
  ZlibCompress : Options → List Byte → List Byte
  /-- The record `InitOptions` fills in. -/
  InitOptions : Options

/-- The files a job can see. -/
structure World where
  /-- Contents of the paths that `LoadFile` loads: `fopen(path, "rb")` opens
  them, the buffer for their bytes is allocated and `fread` fills it. -/
  files : String → Option (List Byte)
  /-- The other paths that `fopen(path, "rb")` opens, with the size that `ftell`
  reports for them: either the buffer for that size is not allocated or
  `fread` does not deliver that many bytes (a directory, a file larger than
  the memory that is left). -/
  unreadable : String → Option Nat
  /-- Whether `fopen(path, "wb")` succeeds. -/
  writable : String → Bool

/-- The file at `path` after it was opened with mode `wb`, written and closed. -/
def World.write (w : World) (path : String) (bytes : List Byte) : World :=
  { w with files := fun p => if p = path then some bytes else w.files p }

/-- Subtraction `a - b` of two `size_t` values (both below `2 ^ bits`): the
difference when there is no borrow, and the difference reduced modulo
`2 ^ bits` when `a` is the smaller one and the subtraction wraps around. -/
def sizeSub (bits a b : Nat) : Nat :=
  if b ≤ a then a - b else (a + 2 ^ bits - b) % 2 ^ bits

/-- The `len` bytes at offset `off` of a readable block, or `none` when the
region is not inside the block. -/
def readBytes (mem : List Byte) (off len : Nat) : Option (List Byte) :=
  if off + len ≤ mem.length then some ((mem.drop off).take len) else none

/-- `LoadFile`: the buffer `*out` and the size `*outsize`.
* A file that loads gives its bytes (followed in memory by the slack) and
  their number.
* A path that `fopen` cannot open gives the null buffer and size 0.
* For any other path `*outsize` is what `ftell` reports and `*out` is
  `malloc(*outsize)`.  When the size is not zero and the block is not null,
  `fread` comes short and both are reset to 0.  Otherwise nothing is reset:
  a failed allocation leaves the null buffer with a non-zero size (the check
  `assert(!(*outsize) || out)` tests the pointer `out`, which is never null). -/
def LoadFile (env : Env) (w : World) (filename : String) : List Byte × Nat :=
  match w.files filename with
  | some bytes => (bytes ++ env.slack, bytes.length)
  | none =>
    match w.unreadable filename with
    | none => ([], 0)
    | some size =>
      let out := env.malloc size
      if size ≠ 0 ∧ out ≠ [] then ([], 0) else (out, size)

/-- The packed `SWFHeader`, byte by byte: `signatures[3]`, `version`, and the
four bytes of `fileLength` in memory order. -/
structure SWFHeader where
  sig0 : Byte
  sig1 : Byte
  sig2 : Byte
  version : Byte
  len0 : Byte
  len1 : Byte
  len2 : Byte
  len3 : Byte
deriving DecidableEq, Repr

/-- The header's eight bytes in memory order, as `fwrite(&header, sizeof(header), 1, file)` emits them. -/
def SWFHeader.bytes (h : SWFHeader) : List Byte :=
  [h.sig0, h.sig1, h.sig2, h.version, h.len0, h.len1, h.len2, h.len3]

/-- The value of the `unsigned int fileLength` field on the host. -/
def SWFHeader.fileLength (env : Env) (h : SWFHeader) : Nat :=
  if env.littleEndian then
    h.len0 + 256 * h.len1 + 65536 * h.len2 + 16777216 * h.len3
  else
    h.len3 + 256 * h.len2 + 65536 * h.len1 + 16777216 * h.len0

/-- The read `*(const SWFHeader*)in`: the first eight bytes of the block laid
over the structure; `none` when the block is shorter than the structure. -/
def readHeader (mem : List Byte) : Option SWFHeader :=
  match readBytes mem 0 sizeofSWFHeader with
  | some [a, b, c, d, e, f, g, h] => some ⟨a, b, c, d, e, f, g, h⟩
  | _ => none

/-- How a call of `CompressFile` ends. -/
inductive Status where
  /-- The function returned to its caller. -/
  | returned
  /-- The check `assert(file)` failed and the process is aborted.  (With
  assertions compiled out the null stream goes to `fwrite`; the function does
  not return to `main` in either build.) -/
  | assertFailed
  /-- A read left the readable memory: the behaviour is undefined. -/
  | outOfBounds
deriving DecidableEq, Repr

/-- The effect of one call of `CompressFile`. -/
structure Job where
  status : Status
  /-- The lines that `CompressFile` itself prints on the diagnostic stream, in
  order (what a collaborator prints there is not recorded). -/
  stderr : List String
  world : World

/-- The initial value of `wrkSize`: `header.fileLength - sizeof(SWFHeader)`, computed in `size_t`. -/
def initialWrkSize (env : Env) (header : SWFHeader) : Nat :=
  sizeSub env.sizeBits (header.fileLength env) sizeofSWFHeader

/-- The block of the source from `fopen(outfilename, "wb")` to `fclose(file)`:
`wrk` is the body read for `ZlibCompress`, `none` when that read is out of bounds. -/
def writeOutput (env : Env) (options : Options) (w : World) (outfilename : String)
    (header : SWFHeader) (diag : List String) (wrk : Option (List Byte)) : Job :=
  if w.writable outfilename then
    let header1 := { header with sig0 := chC }
    match wrk with
    | some body =>
      ⟨Status.returned, diag, w.write outfilename (header1.bytes ++ env.ZlibCompress options body)⟩
    | none => ⟨Status.outOfBounds, diag, w.write outfilename header1.bytes⟩
  else ⟨Status.assertFailed, diag, w⟩

/-- `CompressFile(options, infilename, outfilename)`.  The source region
handed to the decompressor, `in + 8` of length `insize - 8`, is read like any
other region: when it leaves the readable memory (a compressed input shorter
than the header) the job ends there. -/
def CompressFile (env : Env) (options : Options) (w : World)
    (infilename outfilename : String) : Job :=
  let (inp, insize) := LoadFile env w infilename
  if insize = 0 then
    ⟨Status.returned, ["Invalid filename: " ++ infilename ++ "\n"], w⟩
  else
    match readHeader inp with
    | none => ⟨Status.outOfBounds, [], w⟩
    | some header =>
      let s0 := header.sig0
      if s0 = chF ∨ s0 = chC then
        if header.version < 6 then
          ⟨Status.returned, ["SWF version must be equal or greater than 6\n"], w⟩
        else
          let wrkSize := initialWrkSize env header
          let wrk := env.malloc wrkSize
          if s0 = chC then
            match readBytes inp sizeofSWFHeader (sizeSub env.sizeBits insize sizeofSWFHeader) with
            | none => ⟨Status.outOfBounds, [], w⟩
            | some src =>
              let r := env.mz_uncompress wrk wrkSize src
              let diag :=
                if r.ret ≠ MZ_OK then
                  ["Failed to uncompress zlib data: " ++ env.mz_error r.ret ++ "\n"]
                else []
              writeOutput env options w outfilename header diag (readBytes r.dest 0 r.destLen)
          else
            writeOutput env options w outfilename header []
              (readBytes inp sizeofSWFHeader (sizeSub env.sizeBits insize sizeofSWFHeader))
      else
        ⟨Status.returned,
          ["Unsupported SWF signature: " ++ String.singleton (Char.ofNat s0) ++ "\n"], w⟩

/-- `strlen(str)`: the number of bytes of the string. -/
def strlen (str : String) : Nat :=
  str.utf8ByteSize

/-- `AddStrings(str1, str2)`: the concatenation of the two strings in a block
of `strlen(str1) + strlen(str2) + 1` bytes, or `none` when that allocation
fails, where the source calls `exit(-1)`. -/
def AddStrings (env : Env) (str1 str2 : String) : Option String :=
  let len := strlen str1 + strlen str2
  if env.malloc (len + 1) = [] then none else some (str1 ++ str2)

/-- `StringsEqual(str1, str2)`. -/
def StringsEqual (str1 str2 : String) : Bool :=
  decide (str1 = str2)

/-- The character `argv[i][0]`: the first character of the argument, and the
terminating NUL when the argument is the empty string. -/
def firstChar (arg : String) : Char :=
  arg.data.headD (Char.ofNat 0)

/-- The text printed for the argument `-h`. -/
def usageText : String :=
  "Usage: swf-zopfli [OPTION]... FILE\n" ++
  "  -h    gives this help\n" ++
  "  -v    verbose mode\n" ++
  "  --i5  less compression, but faster\n" ++
  "  --i10  less compression, but faster\n" ++
  "  --i15  default compression, 15 iterations\n" ++
  "  --i25  more compression, but slower\n" ++
  "  --i50  more compression, but slower\n" ++
  "  --i100  more compression, but slower\n" ++
  "  --i250  more compression, but slower\n" ++
  "  --i500  more compression, but slower\n" ++
  "  --i1000  more compression, but slower\n"

/-- The first loop of `main` over `argv[1 ..]`: the options after the flags
are applied, or `none` when `-h` is met (usage is printed and `main` returns). -/
def parseFlags (options : Options) : List String → Option Options
  | [] => some options
  | arg :: rest =>
    if StringsEqual arg "-v" then parseFlags { options with verbose := 1 } rest
    else if StringsEqual arg "--i5" then parseFlags { options with numiterations := 5 } rest
    else if StringsEqual arg "--i10" then parseFlags { options with numiterations := 10 } rest
    else if StringsEqual arg "--i15" then parseFlags { options with numiterations := 15 } rest
    else if StringsEqual arg "--i25" then parseFlags { options with numiterations := 25 } rest
    else if StringsEqual arg "--i50" then parseFlags { options with numiterations := 50 } rest
    else if StringsEqual arg "--i100" then parseFlags { options with numiterations := 100 } rest
    else if StringsEqual arg "--i250" then parseFlags { options with numiterations := 250 } rest
    else if StringsEqual arg "--i500" then parseFlags { options with numiterations := 500 } rest
    else if StringsEqual arg "--i1000" then parseFlags { options with numiterations := 1000 } rest
    else if StringsEqual arg "-h" then none
    else parseFlags options rest

/-- How the process ends. -/
inductive Exit where
  /-- The function `main` returned this value, or `exit` was called with it. -/
  | code (n : Int)
  /-- A file job did not return: the assertion failed or a read was out of
  bounds, and the process ended inside `CompressFile`. -/
  | died (s : Status)
deriving DecidableEq, Repr

/-- One call of `CompressFile` made by `main`: its two file names, the world
in which it was made, and its effect. -/
structure Call where
  infilename : String
  outfilename : String
  before : World
  effect : Job

/-- The observable effect of a run of `main`. -/
structure Run where
  exit : Exit
  /-- The lines printed on the diagnostic stream, in order. -/
  stderr : List String
  /-- The calls of `CompressFile` made, in order. -/
  calls : List Call
  world : World

/-- The file names of the calls made, in order, as pairs (infilename, outfilename). -/
def Run.names (r : Run) : List (String × String) :=
  r.calls.map (fun c => (c.infilename, c.outfilename))

/-- The second loop of `main` over `argv[1 ..]`, followed by the end of `main`.
The state carried along is the diagnostic stream, the calls made so far and
the variable `filename` (`none` for the null pointer). -/
def runFiles (env : Env) (options : Options) (argv0 : String) :
    List String → World → List String → List Call → Option String → Run
  | [], w, err, calls, filename =>
    match filename with
    | none =>
      ⟨Exit.code 0, err ++ ["Please provide filename\nFor help, type: " ++ argv0 ++ " -h\n"], calls, w⟩
    | some _ => ⟨Exit.code 0, err, calls, w⟩
  | arg :: rest, w, err, calls, filename =>
    if firstChar arg ≠ '-' then
      match AddStrings env arg ".zopfli" with
      | none => ⟨Exit.code (-1), err, calls, w⟩
      | some outfilename =>
        let err1 := if options.verbose ≠ 0 then err ++ ["Saving to: " ++ outfilename ++ "\n"] else err
        let job := CompressFile env options w arg outfilename
        match job.status with
        | Status.returned =>
          runFiles env options argv0 rest job.world (err1 ++ job.stderr)
            (calls ++ [⟨arg, outfilename, w, job⟩]) (some arg)
        | s => ⟨Exit.died s, err1 ++ job.stderr, calls ++ [⟨arg, outfilename, w, job⟩], job.world⟩
    else runFiles env options argv0 rest w err calls filename

/-- `main(argc, argv)` with `argv[0] = argv0` and `argv[1 ..] = args`. -/
def main (env : Env) (w : World) (argv0 : String) (args : List String) : Run :=
  match parseFlags env.InitOptions args with
  | none => ⟨Exit.code 0, [usageText], [], w⟩
  | some options => runFiles env options argv0 args w [] [] none

/-! ## Vocabulary of the statements -/

/-- The header that an input of at least eight bytes starts with. -/
def headerOf (inp : List Byte) : SWFHeader :=
  ⟨inp.getD 0 0, inp.getD 1 0, inp.getD 2 0, inp.getD 3 0,
   inp.getD 4 0, inp.getD 5 0, inp.getD 6 0, inp.getD 7 0⟩

/-- The result of the one decompressor call that `CompressFile` makes on a
compressed input `inp`: destination `malloc(wrkSize)`, bound `wrkSize`, source
the bytes of `inp` behind the header. -/
def inflated (env : Env) (inp : List Byte) : MzResult :=
  env.mz_uncompress (env.malloc (initialWrkSize env (headerOf inp)))
    (initialWrkSize env (headerOf inp)) (inp.drop sizeofSWFHeader)

/-- The raw body that `CompressFile` hands to the compressor for the input `inp`:
the bytes behind the header of an uncompressed input, and the first `wrkSize`
bytes of the destination block after decompression of a compressed one. -/
def rawBody (env : Env) (inp : List Byte) : List Byte :=
  if inp.getD 0 0 = chC then (inflated env inp).dest.take (inflated env inp).destLen
  else inp.drop sizeofSWFHeader

/-- The file names of the calls of `CompressFile` that a complete run over
`args` makes: one pair for each argument that does not begin with a dash, in
order. -/
def fileJobs (args : List String) : List (String × String) :=
  (args.filter (fun a => decide (firstChar a ≠ '-'))).map (fun a => (a, a ++ ".zopfli"))

/-! ## A concrete environment for evaluation -/

/-- A stand-in compressor: the two-byte zlib header followed by the stored body. -/
def toyCompress (_ : Options) (body : List Byte) : List Byte :=
  0x78 :: 0xDA :: body

/-- A stand-in decompressor, inverse to `toyCompress` when the body fits the
destination: it fails with `MZ_DATA_ERROR` (-3) on a stream that lacks the
header and with `MZ_BUF_ERROR` (-5) when the destination is too small, and
leaves the destination as it was in both cases. -/
def toyUncompress (dest : List Byte) (destLen : Nat) (src : List Byte) : MzResult :=
  match src with
  | 0x78 :: 0xDA :: body =>
    if body.length ≤ destLen ∧ destLen ≤ dest.length then
      ⟨0, body.length, body ++ dest.drop body.length⟩
    else ⟨-5, destLen, dest⟩
  | _ => ⟨-3, destLen, dest⟩

/-- A little-endian 64-bit target with the stand-in collaborators; `malloc`
hands out a zero-filled block of the size asked for. -/
def toyEnv : Env where
  sizeBits := 64
  littleEndian := true
  slack := List.replicate 16 0
  malloc := fun n => List.replicate n 0
  mz_uncompress := toyUncompress
  mz_error := fun n => if n = -3 then "data error" else if n = -5 then "buf error" else ""
  ZlibCompress := toyCompress
  InitOptions := ⟨0, 15⟩

/-- A world that holds the given files and lets every path be opened for writing. -/
def worldOf (entries : List (String × List Byte)) : World where
  files := fun p => (entries.lookup p)
  unreadable := fun _ => none
  writable := fun _ => true

/-- The same world with a directory at `path`, for which `ftell` reports `size`. -/
def World.withDirectory (w : World) (path : String) (size : Nat) : World :=
  { w with unreadable := fun p => if p = path then some size else w.unreadable p }

/-- The stand-in target with a `malloc` that fails above 65536 bytes. -/
def tightEnv : Env :=
  { toyEnv with malloc := fun n => if n ≤ 65536 then List.replicate n 0 else [] }

/-- The stand-in target with a `malloc` that always fails. -/
def noMemoryEnv : Env :=
  { toyEnv with malloc := fun _ => [] }

/-- The same world with one path that cannot be opened for writing. -/
def World.lock (w : World) (path : String) : World :=
  { w with writable := fun p => decide (p ≠ path) && w.writable p }

/-! ## Lemmas on the memory model -/

theorem sizeSub_of_le (bits a b : Nat) (h : b ≤ a) : sizeSub bits a b = a - b := by
  simp [sizeSub, h]

theorem sizeSub_eq_mod (bits a b : Nat) (ha : a < 2 ^ bits) (_hb : b < 2 ^ bits) :
    sizeSub bits a b = (a + 2 ^ bits - b) % 2 ^ bits := by
  unfold sizeSub
  split
  · rename_i h
    have h1 : a + 2 ^ bits - b = (a - b) + 2 ^ bits := by omega
    rw [h1, Nat.add_mod_right, Nat.mod_eq_of_lt (by omega)]
  · rfl

theorem sizeSub_wrap (bits a b : Nat) (hab : a < b) (hb : b ≤ 2 ^ bits) :
    sizeSub bits a b = 2 ^ bits - (b - a) := by
  unfold sizeSub
  rw [if_neg (by omega)]
  have h1 : a + 2 ^ bits - b = 2 ^ bits - (b - a) := by omega
  rw [h1, Nat.mod_eq_of_lt (by omega)]

theorem LoadFile_of_file (env : Env) (w : World) (filename : String) (inp : List Byte)
    (h : w.files filename = some inp) :
    LoadFile env w filename = (inp ++ env.slack, inp.length) := by
  simp [LoadFile, h]

theorem headerOf_bytes (inp : List Byte) (h : 8 ≤ inp.length) :
    (headerOf inp).bytes = inp.take 8 := by
  match inp, h with
  | a :: b :: c :: d :: e :: f :: g :: k :: rest, _ => simp [headerOf, SWFHeader.bytes]

theorem readHeader_of_length (inp tail : List Byte) (h : 8 ≤ inp.length) :
    readHeader (inp ++ tail) = some (headerOf inp) := by
  match inp, h with
  | a :: b :: c :: d :: e :: f :: g :: k :: rest, _ =>
    simp [readHeader, readBytes, sizeofSWFHeader, headerOf]

theorem readBytes_body (bits : Nat) (inp tail : List Byte) (h : 8 ≤ inp.length) :
    readBytes (inp ++ tail) sizeofSWFHeader (sizeSub bits inp.length sizeofSWFHeader)
      = some (inp.drop 8) := by
  have h8 : sizeofSWFHeader = 8 := rfl
  rw [h8, sizeSub_of_le bits _ _ h]
  unfold readBytes
  rw [if_pos (by simp; omega)]
  congr 1
  rw [List.drop_append_of_le_length h]
  have : inp.length - 8 = (inp.drop 8).length := by simp
  rw [this, List.take_left]

/-- The job on an uncompressed input with an acceptable header. -/
theorem CompressFile_uncompressed (env : Env) (options : Options) (w : World)
    (infilename outfilename : String) (inp : List Byte)
    (hfile : w.files infilename = some inp) (hlen : 8 ≤ inp.length)
    (hsig : inp.getD 0 0 = chF) (hver : 6 ≤ inp.getD 3 0) :
    CompressFile env options w infilename outfilename
      = writeOutput env options w outfilename (headerOf inp) [] (some (inp.drop 8)) := by
  have hne : inp.length ≠ 0 := by omega
  have h0 : (headerOf inp).sig0 = chF := hsig
  have h3 : ¬ (headerOf inp).version < 6 := by
    exact Nat.not_lt.mpr hver
  have hFC : chF ≠ chC := by decide
  simp only [CompressFile, LoadFile_of_file env w infilename inp hfile, if_neg hne,
    readHeader_of_length inp env.slack hlen, h0, true_or, if_true, if_neg h3, if_neg hFC,
    readBytes_body env.sizeBits inp env.slack hlen]

/-- The job on a compressed input with an acceptable header. -/
theorem CompressFile_compressed (env : Env) (options : Options) (w : World)
    (infilename outfilename : String) (inp : List Byte)
    (hfile : w.files infilename = some inp) (hlen : 8 ≤ inp.length)
    (hsig : inp.getD 0 0 = chC) (hver : 6 ≤ inp.getD 3 0) :
    CompressFile env options w infilename outfilename
      = writeOutput env options w outfilename (headerOf inp)
          (if (inflated env inp).ret ≠ MZ_OK then
            ["Failed to uncompress zlib data: " ++ env.mz_error (inflated env inp).ret ++ "\n"]
           else [])
          (readBytes (inflated env inp).dest 0 (inflated env inp).destLen) := by
  have hne : inp.length ≠ 0 := by omega
  have h0 : (headerOf inp).sig0 = chC := hsig
  have h3 : ¬ (headerOf inp).version < 6 := by
    exact Nat.not_lt.mpr hver
  simp only [CompressFile, LoadFile_of_file env w infilename inp hfile, if_neg hne,
    readHeader_of_length inp env.slack hlen, h0, or_true, if_true, if_neg h3,
    readBytes_body env.sizeBits inp env.slack hlen, inflated]
  rfl

theorem outputHeader_bytes (inp : List Byte) (h : 8 ≤ inp.length) :
    SWFHeader.bytes { headerOf inp with sig0 := chC } = chC :: (inp.drop 1).take 7 := by
  match inp, h with
  | a :: b :: c :: d :: e :: f :: g :: k :: rest, _ => simp [headerOf, SWFHeader.bytes]

theorem writeOutput_of_body (env : Env) (options : Options) (w : World) (outfilename : String)
    (header : SWFHeader) (diag : List String) (body : List Byte)
    (hopen : w.writable outfilename = true) :
    writeOutput env options w outfilename header diag (some body)
      = ⟨Status.returned, diag,
          w.write outfilename
            (SWFHeader.bytes { header with sig0 := chC } ++ env.ZlibCompress options body)⟩ := by
  simp [writeOutput, hopen]

theorem readBytes_zero (mem : List Byte) (len : Nat) (h : len ≤ mem.length) :
    readBytes mem 0 len = some (mem.take len) := by
  simp [readBytes, h]

theorem World.write_files_same (w : World) (path : String) (bytes : List Byte) :
    (w.write path bytes).files path = some bytes := by
  simp [World.write]

theorem World.write_files_other (w : World) (path p : String) (bytes : List Byte)
    (h : p ≠ path) : (w.write path bytes).files p = w.files p := by
  simp [World.write, h]

/-- The whole effect of the job on an uncompressed input with an acceptable
header whose destination opens. -/
theorem CompressFile_uncompressed_effect (env : Env) (options : Options) (w : World)
    (infilename outfilename : String) (inp : List Byte)
    (hfile : w.files infilename = some inp) (hlen : 8 ≤ inp.length)
    (hsig : inp.getD 0 0 = chF) (hver : 6 ≤ inp.getD 3 0)
    (hopen : w.writable outfilename = true) :
    CompressFile env options w infilename outfilename
      = ⟨Status.returned, [],
          w.write outfilename
            (chC :: (inp.drop 1).take 7 ++ env.ZlibCompress options (inp.drop 8))⟩ := by
  rw [CompressFile_uncompressed env options w infilename outfilename inp hfile hlen hsig hver,
    writeOutput_of_body env options w outfilename _ _ _ hopen, outputHeader_bytes inp hlen]

/-- The whole effect of the job on a compressed input with an acceptable
header whose destination opens, when the length the decompressor reports lies
inside its destination block: the output is written whether or not the
decompressor reported success. -/
theorem CompressFile_compressed_effect (env : Env) (options : Options) (w : World)
    (infilename outfilename : String) (inp : List Byte)
    (hfile : w.files infilename = some inp) (hlen : 8 ≤ inp.length)
    (hsig : inp.getD 0 0 = chC) (hver : 6 ≤ inp.getD 3 0)
    (hopen : w.writable outfilename = true)
    (hbuf : (inflated env inp).destLen ≤ (inflated env inp).dest.length) :
    CompressFile env options w infilename outfilename
      = ⟨Status.returned,
          (if (inflated env inp).ret ≠ MZ_OK then
            ["Failed to uncompress zlib data: " ++ env.mz_error (inflated env inp).ret ++ "\n"]
           else []),
          w.write outfilename
            (chC :: (inp.drop 1).take 7 ++ env.ZlibCompress options
              ((inflated env inp).dest.take (inflated env inp).destLen))⟩ := by
  rw [CompressFile_compressed env options w infilename outfilename inp hfile hlen hsig hver,
    readBytes_zero _ _ hbuf,
    writeOutput_of_body env options w outfilename _ _ _ hopen, outputHeader_bytes inp hlen]

/-- The output written for an input `inp` with raw body `body`. -/
theorem output_shape (inp rest : List Byte) (h : 8 ≤ inp.length) :
    8 ≤ (chC :: (inp.drop 1).take 7 ++ rest).length ∧
    (chC :: (inp.drop 1).take 7 ++ rest).getD 0 0 = chC ∧
    (chC :: (inp.drop 1).take 7 ++ rest).getD 3 0 = inp.getD 3 0 ∧
    ((chC :: (inp.drop 1).take 7 ++ rest).drop 1).take 7 = (inp.drop 1).take 7 ∧
    (chC :: (inp.drop 1).take 7 ++ rest).drop 8 = rest ∧
    ∀ env : Env, (headerOf (chC :: (inp.drop 1).take 7 ++ rest)).fileLength env
      = (headerOf inp).fileLength env := by
  match inp, h with
  | a :: b :: c :: d :: e :: f :: g :: k :: tl, _ =>
    refine ⟨by simp, by simp, by simp, by simp, by simp, ?_⟩
    intro env
    simp [headerOf, SWFHeader.fileLength]

/-- The job on a non-empty input whose header is read and rejected. -/
theorem CompressFile_rejected (env : Env) (options : Options) (w : World)
    (infilename outfilename : String) (inp : List Byte)
    (hfile : w.files infilename = some inp) (hne : inp ≠ [])
    (hmem : 8 ≤ (inp ++ env.slack).length)
    (hrej : (inp.getD 0 0 ≠ chF ∧ inp.getD 0 0 ≠ chC) ∨ (inp ++ env.slack).getD 3 0 < 6) :
    CompressFile env options w infilename outfilename
      = ⟨Status.returned,
          [if inp.getD 0 0 = chF ∨ inp.getD 0 0 = chC then
              "SWF version must be equal or greater than 6\n"
            else
              "Unsupported SWF signature: " ++ String.singleton (Char.ofNat (inp.getD 0 0)) ++ "\n"],
          w⟩ := by
  have hlen : inp.length ≠ 0 := by
    intro h
    exact hne (List.length_eq_zero.mp h)
  have hhdr : readHeader (inp ++ env.slack) = some (headerOf (inp ++ env.slack)) := by
    have := readHeader_of_length (inp ++ env.slack) [] hmem
    simpa using this
  have h0 : (headerOf (inp ++ env.slack)).sig0 = inp.getD 0 0 := by
    match inp, hne with
    | a :: tl, _ => simp [headerOf]
  have h3 : (headerOf (inp ++ env.slack)).version = (inp ++ env.slack).getD 3 0 := rfl
  simp only [CompressFile, LoadFile_of_file env w infilename inp hfile, if_neg hlen, hhdr, h0, h3]
  by_cases hs : inp.getD 0 0 = chF ∨ inp.getD 0 0 = chC
  · have hv : (inp ++ env.slack).getD 3 0 < 6 := by
      rcases hrej with ⟨hF, hC⟩ | hv
      · rcases hs with h | h
        · exact absurd h hF
        · exact absurd h hC
      · exact hv
    rw [if_pos hs, if_pos hv, if_pos hs]
  · rw [if_neg hs, if_neg hs]

/-- The job on a path for which `LoadFile` reports size 0. -/
theorem CompressFile_unreadable (env : Env) (options : Options) (w : World)
    (infilename outfilename : String)
    (h : (LoadFile env w infilename).2 = 0) :
    CompressFile env options w infilename outfilename
      = ⟨Status.returned, ["Invalid filename: " ++ infilename ++ "\n"], w⟩ := by
  cases hL : LoadFile env w infilename with
  | mk inp insize =>
    rw [hL] at h
    simp only [CompressFile, hL]
    rw [if_pos h]

theorem AddStrings_some (env : Env) (str1 str2 out : String)
    (h : AddStrings env str1 str2 = some out) : out = str1 ++ str2 := by
  unfold AddStrings at h
  simp only [] at h
  split at h
  · cases h
  · exact (Option.some.inj h).symm

theorem writeOutput_stderr (env : Env) (options : Options) (w : World) (outfilename : String)
    (header : SWFHeader) (diag : List String) (wrk : Option (List Byte)) :
    (writeOutput env options w outfilename header diag wrk).stderr = diag := by
  unfold writeOutput
  split
  · split <;> rfl
  · rfl

/-- The job on a non-empty input whose header read leaves the readable memory. -/
theorem CompressFile_header_fault (env : Env) (options : Options) (w : World)
    (infilename outfilename : String) (inp : List Byte)
    (hfile : w.files infilename = some inp) (hne : inp ≠ [])
    (hmem : ¬ 8 ≤ (inp ++ env.slack).length) :
    (CompressFile env options w infilename outfilename).status = Status.outOfBounds := by
  have hlen : inp.length ≠ 0 := by
    intro h
    exact hne (List.length_eq_zero.mp h)
  have hhdr : readHeader (inp ++ env.slack) = none := by
    simp only [readHeader, readBytes, sizeofSWFHeader, Nat.zero_add, if_neg hmem]
  simp only [CompressFile, LoadFile_of_file env w infilename inp hfile, if_neg hlen, hhdr]

/-- A job returns when its destination opens and its input either has size 0
for `LoadFile` or is a loaded file of at least eight bytes on which, if it is
an accepted compressed file, the decompressor reports a length inside its
destination block.  It returns whether or not it prints a diagnostic. -/
theorem CompressFile_returns (env : Env) (options : Options) (w : World)
    (infilename outfilename : String)
    (hopen : w.writable outfilename = true)
    (hload : (LoadFile env w infilename).2 = 0 ∨
      ∃ inp, w.files infilename = some inp ∧ 8 ≤ inp.length ∧
        (inp.getD 0 0 = chC → 6 ≤ inp.getD 3 0 →
          (inflated env inp).destLen ≤ (inflated env inp).dest.length)) :
    (CompressFile env options w infilename outfilename).status = Status.returned := by
  rcases hload with h0 | ⟨inp, hfile, hlen, hbuf⟩
  · rw [CompressFile_unreadable env options w infilename outfilename h0]
  · have hne : inp ≠ [] := by
      intro h
      subst h
      simp at hlen
    have hmem : 8 ≤ (inp ++ env.slack).length := by
      rw [List.length_append]
      omega
    have h3 : (inp ++ env.slack).getD 3 0 = inp.getD 3 0 := by
      match inp, hlen with
      | a :: b :: c :: d :: e :: f :: g :: k :: tl, _ => simp
    by_cases hv : inp.getD 3 0 < 6
    · rw [CompressFile_rejected env options w infilename outfilename inp hfile hne hmem
        (Or.inr (by rw [h3]; exact hv))]
    · have hver : 6 ≤ inp.getD 3 0 := Nat.le_of_not_lt hv
      by_cases hF : inp.getD 0 0 = chF
      · rw [CompressFile_uncompressed_effect env options w infilename outfilename inp hfile
          hlen hF hver hopen]
      · by_cases hC : inp.getD 0 0 = chC
        · rw [CompressFile_compressed_effect env options w infilename outfilename inp hfile
            hlen hC hver hopen (hbuf hC hver)]
        · rw [CompressFile_rejected env options w infilename outfilename inp hfile hne hmem
            (Or.inl ⟨hF, hC⟩)]

/-- The second loop of `main` runs to its end, returns 0 and calls
`CompressFile` once for every argument that does not begin with a dash, when
every output name is allocated and every call made returns. -/
theorem runFiles_complete (env : Env) (options : Options) (argv0 : String)
    (args : List String) :
    ∀ (w : World) (err : List String) (calls : List Call) (filename : Option String),
      (∀ a ∈ args, firstChar a ≠ '-' → AddStrings env a ".zopfli" ≠ none) →
      (∀ c ∈ (runFiles env options argv0 args w err calls filename).calls,
        c.effect.status = Status.returned) →
      (runFiles env options argv0 args w err calls filename).exit = Exit.code 0 ∧
      (runFiles env options argv0 args w err calls filename).names
        = calls.map (fun c => (c.infilename, c.outfilename)) ++ fileJobs args := by
  induction args with
  | nil =>
    intro w err calls filename _ _
    cases filename <;> simp [runFiles, fileJobs, Run.names]
  | cons a rest ih =>
    intro w err calls filename hnames hret
    by_cases hflag : firstChar a ≠ '-'
    · have hjobs : fileJobs (a :: rest) = (a, a ++ ".zopfli") :: fileJobs rest := by
        simp [fileJobs, hflag]
      cases hadd : AddStrings env a ".zopfli" with
      | none => exact absurd hadd (hnames a (List.mem_cons_self _ _) hflag)
      | some out =>
        have hout : out = a ++ ".zopfli" := AddStrings_some env a ".zopfli" out hadd
        subst hout
        cases hst : (CompressFile env options w a (a ++ ".zopfli")).status with
        | returned =>
          simp only [runFiles, if_pos hflag, hadd, hst] at hret ⊢
          obtain ⟨h1, h2⟩ := ih _ _ _ _
            (fun b hb hbf => hnames b (List.mem_cons_of_mem _ hb) hbf) hret
          refine ⟨h1, ?_⟩
          rw [h2, hjobs]
          simp
        | assertFailed =>
          simp only [runFiles, if_pos hflag, hadd, hst] at hret
          have := hret ⟨a, a ++ ".zopfli", w, CompressFile env options w a (a ++ ".zopfli")⟩
            (by simp)
          rw [hst] at this
          cases this
        | outOfBounds =>
          simp only [runFiles, if_pos hflag, hadd, hst] at hret
          have := hret ⟨a, a ++ ".zopfli", w, CompressFile env options w a (a ++ ".zopfli")⟩
            (by simp)
          rw [hst] at this
          cases this
    · have hjobs : fileJobs (a :: rest) = fileJobs rest := by
        simp [fileJobs, hflag]
      simp only [runFiles, if_neg hflag] at hret ⊢
      rw [hjobs]
      exact ih w err calls filename
        (fun b hb hbf => hnames b (List.mem_cons_of_mem _ hb) hbf) hret

/-- Whatever the jobs do, the file names of the calls made by the second loop
of `main` are an initial segment of those of a complete run. -/
theorem runFiles_calls_initial (env : Env) (options : Options) (argv0 : String)
    (args : List String) :
    ∀ (w : World) (err : List String) (calls : List Call) (filename : Option String),
      ∃ k, (runFiles env options argv0 args w err calls filename).names
        = calls.map (fun c => (c.infilename, c.outfilename)) ++ (fileJobs args).take k := by
  induction args with
  | nil =>
    intro w err calls filename
    cases filename <;> exact ⟨0, by simp [runFiles, fileJobs, Run.names]⟩
  | cons a rest ih =>
    intro w err calls filename
    by_cases hflag : firstChar a ≠ '-'
    · have hjobs : fileJobs (a :: rest) = (a, a ++ ".zopfli") :: fileJobs rest := by
        simp [fileJobs, hflag]
      rw [hjobs]
      cases hadd : AddStrings env a ".zopfli" with
      | none =>
        simp only [runFiles, if_pos hflag, hadd]
        exact ⟨0, by simp [Run.names]⟩
      | some out =>
        have hout : out = a ++ ".zopfli" := AddStrings_some env a ".zopfli" out hadd
        subst hout
        cases hst : (CompressFile env options w a (a ++ ".zopfli")).status with
        | returned =>
          simp only [runFiles, if_pos hflag, hadd, hst]
          obtain ⟨k, hk⟩ := ih (CompressFile env options w a (a ++ ".zopfli")).world
            ((if options.verbose ≠ 0 then err ++ ["Saving to: " ++ (a ++ ".zopfli") ++ "\n"]
              else err) ++ (CompressFile env options w a (a ++ ".zopfli")).stderr)
            (calls ++ [⟨a, a ++ ".zopfli", w, CompressFile env options w a (a ++ ".zopfli")⟩])
            (some a)
          refine ⟨k + 1, ?_⟩
          rw [hk]
          simp
        | assertFailed =>
          simp only [runFiles, if_pos hflag, hadd, hst]
          exact ⟨1, by simp [Run.names]⟩
        | outOfBounds =>
          simp only [runFiles, if_pos hflag, hadd, hst]
          exact ⟨1, by simp [Run.names]⟩
    · have hjobs : fileJobs (a :: rest) = fileJobs rest := by
        simp [fileJobs, hflag]
      simp only [runFiles, if_neg hflag]
      rw [hjobs]
      exact ih w err calls filename

/-- Every call recorded by the second loop of `main` carries the effect of
`CompressFile` in the world of the call, and every diagnostic line of that
effect is on the diagnostic stream of the run. -/
theorem runFiles_trace (env : Env) (options : Options) (argv0 : String)
    (args : List String) :
    ∀ (w : World) (err : List String) (calls : List Call) (filename : Option String),
      (∀ c ∈ calls,
        c.effect = CompressFile env options c.before c.infilename c.outfilename ∧
        c.effect.stderr ⊆ err) →
      ∀ c ∈ (runFiles env options argv0 args w err calls filename).calls,
        c.effect = CompressFile env options c.before c.infilename c.outfilename ∧
        c.effect.stderr ⊆ (runFiles env options argv0 args w err calls filename).stderr := by
  induction args with
  | nil =>
    intro w err calls filename hacc c hc
    cases filename with
    | none =>
      simp only [runFiles] at hc ⊢
      exact ⟨(hacc c hc).1, List.subset_append_of_subset_left _ (hacc c hc).2⟩
    | some f =>
      simp only [runFiles] at hc ⊢
      exact hacc c hc
  | cons a rest ih =>
    intro w err calls filename hacc
    by_cases hflag : firstChar a ≠ '-'
    · cases hadd : AddStrings env a ".zopfli" with
      | none =>
        simp only [runFiles, if_pos hflag, hadd]
        exact hacc
      | some out =>
        have hacc1 : ∀ c ∈ calls ++ [⟨a, out, w, CompressFile env options w a out⟩],
            c.effect = CompressFile env options c.before c.infilename c.outfilename ∧
            c.effect.stderr ⊆
              (if options.verbose ≠ 0 then err ++ ["Saving to: " ++ out ++ "\n"] else err)
                ++ (CompressFile env options w a out).stderr := by
          intro c hc
          rcases List.mem_append.mp hc with hc | hc
          · refine ⟨(hacc c hc).1, List.subset_append_of_subset_left _ ?_⟩
            split
            · exact List.subset_append_of_subset_left _ (hacc c hc).2
            · exact (hacc c hc).2
          · rw [List.mem_singleton] at hc
            subst hc
            exact ⟨rfl, List.subset_append_right _ _⟩
        cases hst : (CompressFile env options w a out).status with
        | returned =>
          simp only [runFiles, if_pos hflag, hadd, hst]
          exact ih _ _ _ _ hacc1
        | assertFailed =>
          simp only [runFiles, if_pos hflag, hadd, hst]
          exact hacc1
        | outOfBounds =>
          simp only [runFiles, if_pos hflag, hadd, hst]
          exact hacc1
    · simp only [runFiles, if_neg hflag]
      exact ih w err calls filename hacc

theorem append_ne_self (p : String) : p ++ ".zopfli" ≠ p := by
  intro h
  have := congrArg String.length h
  rw [String.length_append] at this
  have h7 : ".zopfli".length = 7 := by decide
  omega

theorem toyEnv_AddStrings (str1 str2 : String) :
    AddStrings toyEnv str1 str2 = some (str1 ++ str2) := by
  simp [AddStrings, toyEnv, List.replicate_succ]

theorem ite_ne_none {α : Type} {c : Prop} [Decidable c] {x y : Option α}
    (hx : x ≠ none) (hy : y ≠ none) : (if c then x else y) ≠ none := by
  split <;> assumption

/-- The first loop of `main` ends without printing the usage when no argument is `-h`. -/
theorem parseFlags_of_no_help (args : List String) (h : "-h" ∉ args) :
    ∀ options : Options, parseFlags options args ≠ none := by
  induction args with
  | nil =>
    intro options
    simp [parseFlags]
  | cons a rest ih =>
    intro options
    have ha : a ≠ "-h" := by
      intro e
      apply h
      rw [e]
      exact List.mem_cons_self _ _
    have hrest : "-h" ∉ rest := fun e => h (List.mem_cons_of_mem _ e)
    have hse : StringsEqual a "-h" = false := by
      simp [StringsEqual, ha]
    unfold parseFlags
    rw [hse]
    iterate 10 refine ite_ne_none (ih hrest _) ?_
    rw [if_neg Bool.false_ne_true]
    exact ih hrest _

/-! ## The claims -/

/-- C1: for every input that `CompressFile` accepts (at least 8 bytes, byte 0
is F or C, version byte at offset 3 at least 6) and whose destination opens,
the job returns and the first 8 bytes of the written output are the byte C
followed by input bytes 1..7 verbatim; the four `fileLength` bytes among them
are the input's, not recomputed.  For a compressed input the length reported
by the decompressor is taken to lie inside its destination block. -/
theorem compressFile_header_verbatim (env : Env) (options : Options) (w : World)
    (infilename outfilename : String) (inp : List Byte)
    (hfile : w.files infilename = some inp) (hlen : 8 ≤ inp.length)
    (hsig : inp.getD 0 0 = chF ∨ inp.getD 0 0 = chC) (hver : 6 ≤ inp.getD 3 0)
    (hopen : w.writable outfilename = true)
    (hbuf : inp.getD 0 0 = chC →
      (inflated env inp).destLen ≤ (inflated env inp).dest.length) :
    (CompressFile env options w infilename outfilename).status = Status.returned ∧
    ∃ out, (CompressFile env options w infilename outfilename).world.files outfilename = some out ∧
      out.take 8 = chC :: (inp.drop 1).take 7 ∧
      (out.drop 4).take 4 = (inp.drop 4).take 4 := by
  have hlen7 : ((inp.drop 1).take 7).length = 7 := by
    simp
    omega
  have key : ∀ rest : List Byte,
      (chC :: (inp.drop 1).take 7 ++ rest).take 8 = chC :: (inp.drop 1).take 7 ∧
      ((chC :: (inp.drop 1).take 7 ++ rest).drop 4).take 4 = (inp.drop 4).take 4 := by
    intro rest
    match inp, hlen with
    | a :: b :: c :: d :: e :: f :: g :: k :: tl, _ => simp
  rcases hsig with hF | hC
  · rw [CompressFile_uncompressed_effect env options w infilename outfilename inp hfile hlen hF
      hver hopen]
    exact ⟨rfl, _, World.write_files_same _ _ _, key _⟩
  · rw [CompressFile_compressed_effect env options w infilename outfilename inp hfile hlen hC
      hver hopen (hbuf hC)]
    exact ⟨rfl, _, World.write_files_same _ _ _, key _⟩

/-- C1 at a compressed input: header CWS, version 9, `fileLength` 11, and a
body that the stand-in decompressor decodes to 1, 2, 3. -/
theorem compressFile_header_verbatim_witness :
    (CompressFile toyEnv ⟨0, 15⟩
        (worldOf [("a.swf", [0x43, 0x57, 0x53, 9, 11, 0, 0, 0, 0x78, 0xDA, 1, 2, 3])])
        "a.swf" "a.swf.zopfli").status = Status.returned ∧
    ∃ out, (CompressFile toyEnv ⟨0, 15⟩
        (worldOf [("a.swf", [0x43, 0x57, 0x53, 9, 11, 0, 0, 0, 0x78, 0xDA, 1, 2, 3])])
        "a.swf" "a.swf.zopfli").world.files "a.swf.zopfli" = some out ∧
      out.take 8 = [0x43, 0x57, 0x53, 9, 11, 0, 0, 0] ∧
      (out.drop 4).take 4 = [11, 0, 0, 0] :=
  compressFile_header_verbatim toyEnv ⟨0, 15⟩
    (worldOf [("a.swf", [0x43, 0x57, 0x53, 9, 11, 0, 0, 0, 0x78, 0xDA, 1, 2, 3])])
    "a.swf" "a.swf.zopfli" [0x43, 0x57, 0x53, 9, 11, 0, 0, 0, 0x78, 0xDA, 1, 2, 3]
    (by decide) (by decide) (by decide) (by decide) (by decide) (by decide)

/-- C2: for every valid uncompressed input (byte 0 is F, version at least 6,
at least 8 bytes) whose destination opens, the job returns without a
diagnostic and writes the header with C in byte 0 followed by exactly
`compress(input[8 ..])`, whatever the `fileLength` bytes hold; so every
decompressor that inverts the compressor gives back the original body from
the output body. -/
theorem compressFile_uncompressed_body (env : Env) (options : Options) (w : World)
    (infilename outfilename : String) (inp : List Byte)
    (hfile : w.files infilename = some inp) (hlen : 8 ≤ inp.length)
    (hsig : inp.getD 0 0 = chF) (hver : 6 ≤ inp.getD 3 0)
    (hopen : w.writable outfilename = true) :
    (CompressFile env options w infilename outfilename).status = Status.returned ∧
    (CompressFile env options w infilename outfilename).stderr = [] ∧
    ∃ out, (CompressFile env options w infilename outfilename).world.files outfilename = some out ∧
      out.take 8 = chC :: (inp.drop 1).take 7 ∧
      out.drop 8 = env.ZlibCompress options (inp.drop 8) ∧
      ∀ decompress : List Byte → Option (List Byte),
        (∀ b, decompress (env.ZlibCompress options b) = some b) →
        decompress (out.drop 8) = some (inp.drop 8) := by
  have hlen8 : (chC :: (inp.drop 1).take 7).length = 8 := by
    simp
    omega
  rw [CompressFile_uncompressed_effect env options w infilename outfilename inp hfile hlen hsig
    hver hopen]
  refine ⟨rfl, rfl, _, World.write_files_same _ _ _, ?_, ?_, ?_⟩
  · rw [← hlen8, List.take_left]
  · rw [← hlen8, List.drop_left]
  · intro decompress hinv
    rw [← hlen8, List.drop_left]
    exact hinv _

/-- C2, the scenario of the specification: header FWS, version 6,
`fileLength` 20, then the twelve bytes 1..12. -/
theorem compressFile_uncompressed_body_witness :
    (CompressFile toyEnv ⟨0, 15⟩
        (worldOf [("movie.swf", [0x46, 0x57, 0x53, 6, 20, 0, 0, 0, 1, 2, 3, 4, 5, 6, 7, 8, 9, 10, 11, 12])])
        "movie.swf" "movie.swf.zopfli").status = Status.returned ∧
    (CompressFile toyEnv ⟨0, 15⟩
        (worldOf [("movie.swf", [0x46, 0x57, 0x53, 6, 20, 0, 0, 0, 1, 2, 3, 4, 5, 6, 7, 8, 9, 10, 11, 12])])
        "movie.swf" "movie.swf.zopfli").world.files "movie.swf.zopfli"
      = some ([0x43, 0x57, 0x53, 6, 20, 0, 0, 0]
          ++ toyEnv.ZlibCompress ⟨0, 15⟩ [1, 2, 3, 4, 5, 6, 7, 8, 9, 10, 11, 12]) := by
  have h := compressFile_uncompressed_body toyEnv ⟨0, 15⟩
    (worldOf [("movie.swf", [0x46, 0x57, 0x53, 6, 20, 0, 0, 0, 1, 2, 3, 4, 5, 6, 7, 8, 9, 10, 11, 12])])
    "movie.swf" "movie.swf.zopfli"
    [0x46, 0x57, 0x53, 6, 20, 0, 0, 0, 1, 2, 3, 4, 5, 6, 7, 8, 9, 10, 11, 12]
    (by decide) (by decide) (by decide) (by decide) (by decide)
  obtain ⟨h1, _, out, h3, h4, h5, _⟩ := h
  refine ⟨h1, ?_⟩
  rw [h3, ← List.take_append_drop 8 out, h4, h5]
  rfl

/-- C3: for every valid compressed input (byte 0 is C, version at least 6, at
least 8 bytes) whose destination opens and whose body `input[8 ..]` the
decompressor, called with the bound `wrkSize` (which is `fileLength - 8`
whenever `fileLength` is at least 8), decodes with `MZ_OK` to
`D = dest[0 .. destLen)`: the job returns without a diagnostic and the output
is the header with C in byte 0 followed by exactly `compress(D)`, `D` having
the length the decompressor reported; so every decompressor that inverts the
compressor gives back `D` from the output body. -/
theorem compressFile_compressed_body (env : Env) (options : Options) (w : World)
    (infilename outfilename : String) (inp : List Byte)
    (hfile : w.files infilename = some inp) (hlen : 8 ≤ inp.length)
    (hsig : inp.getD 0 0 = chC) (hver : 6 ≤ inp.getD 3 0)
    (hopen : w.writable outfilename = true)
    (hret : (inflated env inp).ret = MZ_OK)
    (hbuf : (inflated env inp).destLen ≤ (inflated env inp).dest.length) :
    (8 ≤ (headerOf inp).fileLength env →
      inflated env inp
        = env.mz_uncompress (env.malloc ((headerOf inp).fileLength env - 8))
            ((headerOf inp).fileLength env - 8) (inp.drop 8)) ∧
    ((inflated env inp).dest.take (inflated env inp).destLen).length
      = (inflated env inp).destLen ∧
    (CompressFile env options w infilename outfilename).status = Status.returned ∧
    (CompressFile env options w infilename outfilename).stderr = [] ∧
    ∃ out, (CompressFile env options w infilename outfilename).world.files outfilename = some out ∧
      out.take 8 = chC :: (inp.drop 1).take 7 ∧
      out.drop 8 = env.ZlibCompress options
        ((inflated env inp).dest.take (inflated env inp).destLen) ∧
      ∀ decompress : List Byte → Option (List Byte),
        (∀ b, decompress (env.ZlibCompress options b) = some b) →
        decompress (out.drop 8)
          = some ((inflated env inp).dest.take (inflated env inp).destLen) := by
  have hlen8 : (chC :: (inp.drop 1).take 7).length = 8 := by
    simp
    omega
  rw [CompressFile_compressed_effect env options w infilename outfilename inp hfile hlen hsig
    hver hopen hbuf]
  refine ⟨?_, ?_, rfl, ?_, _, World.write_files_same _ _ _, ?_, ?_, ?_⟩
  · intro h8
    have hs : sizeofSWFHeader = 8 := rfl
    simp only [inflated, initialWrkSize]
    rw [hs, sizeSub_of_le _ _ _ h8]
  · simpa using hbuf
  · simp [hret]
  · rw [← hlen8, List.take_left]
  · rw [← hlen8, List.drop_left]
  · intro decompress hinv
    rw [← hlen8, List.drop_left]
    exact hinv _

/-- C3 at header CWS, version 6, `fileLength` 11 and a body that the stand-in
decompressor decodes to 1, 2, 3 within the bound 11 - 8 = 3. -/
theorem compressFile_compressed_body_witness :
    (inflated toyEnv [0x43, 0x57, 0x53, 6, 11, 0, 0, 0, 0x78, 0xDA, 1, 2, 3]).ret = MZ_OK ∧
    (inflated toyEnv [0x43, 0x57, 0x53, 6, 11, 0, 0, 0, 0x78, 0xDA, 1, 2, 3]).dest.take
      (inflated toyEnv [0x43, 0x57, 0x53, 6, 11, 0, 0, 0, 0x78, 0xDA, 1, 2, 3]).destLen
      = [1, 2, 3] ∧
    ∃ out, (CompressFile toyEnv ⟨0, 15⟩
        (worldOf [("a.swf", [0x43, 0x57, 0x53, 6, 11, 0, 0, 0, 0x78, 0xDA, 1, 2, 3])])
        "a.swf" "a.swf.zopfli").world.files "a.swf.zopfli" = some out ∧
      out.take 8 = [0x43, 0x57, 0x53, 6, 11, 0, 0, 0] ∧
      out.drop 8 = toyEnv.ZlibCompress ⟨0, 15⟩ [1, 2, 3] := by
  have h := compressFile_compressed_body toyEnv ⟨0, 15⟩
    (worldOf [("a.swf", [0x43, 0x57, 0x53, 6, 11, 0, 0, 0, 0x78, 0xDA, 1, 2, 3])])
    "a.swf" "a.swf.zopfli" [0x43, 0x57, 0x53, 6, 11, 0, 0, 0, 0x78, 0xDA, 1, 2, 3]
    (by decide) (by decide) (by decide) (by decide) (by decide) (by decide) (by decide)
  obtain ⟨_, _, _, _, out, h1, h2, h3, _⟩ := h
  exact ⟨by decide, by decide, out, h1, h2, h3⟩

/-- C4: for every non-empty input whose eight-byte header read stays inside
readable memory, if byte 0 is neither F nor C (the byte Z included), or byte 0
is F or C and the version byte at offset 3 is below 6, then the job returns
after exactly one diagnostic and leaves the world as it was: no output file
is created or written. -/
theorem compressFile_rejects (env : Env) (options : Options) (w : World)
    (infilename outfilename : String) (inp : List Byte)
    (hfile : w.files infilename = some inp) (hne : inp ≠ [])
    (hmem : 8 ≤ (inp ++ env.slack).length)
    (hrej : (inp.getD 0 0 ≠ chF ∧ inp.getD 0 0 ≠ chC) ∨ (inp ++ env.slack).getD 3 0 < 6) :
    (CompressFile env options w infilename outfilename).status = Status.returned ∧
    (CompressFile env options w infilename outfilename).world = w ∧
    (CompressFile env options w infilename outfilename).stderr =
      [if inp.getD 0 0 = chF ∨ inp.getD 0 0 = chC then
          "SWF version must be equal or greater than 6\n"
        else "Unsupported SWF signature: " ++ String.singleton (Char.ofNat (inp.getD 0 0)) ++ "\n"] := by
  rw [CompressFile_rejected env options w infilename outfilename inp hfile hne hmem hrej]
  exact ⟨rfl, rfl, rfl⟩

/-- C4 at a one-byte input Z and at the scenario of the specification with
version 5: no output file exists afterwards. -/
theorem compressFile_rejects_witness :
    (CompressFile toyEnv ⟨0, 15⟩ (worldOf [("z.swf", [0x5A])]) "z.swf" "z.swf.zopfli").world
      = worldOf [("z.swf", [0x5A])] ∧
    (CompressFile toyEnv ⟨0, 15⟩
        (worldOf [("v5.swf", [0x46, 0x57, 0x53, 5, 20, 0, 0, 0, 1, 2, 3, 4, 5, 6, 7, 8, 9, 10, 11, 12])])
        "v5.swf" "v5.swf.zopfli").world.files "v5.swf.zopfli" = none :=
  ⟨(compressFile_rejects toyEnv ⟨0, 15⟩ (worldOf [("z.swf", [0x5A])]) "z.swf" "z.swf.zopfli"
      [0x5A] (by decide) (by decide) (by decide) (by decide)).2.1,
   by
    rw [(compressFile_rejects toyEnv ⟨0, 15⟩
      (worldOf [("v5.swf", [0x46, 0x57, 0x53, 5, 20, 0, 0, 0, 1, 2, 3, 4, 5, 6, 7, 8, 9, 10, 11, 12])])
      "v5.swf" "v5.swf.zopfli"
      [0x46, 0x57, 0x53, 5, 20, 0, 0, 0, 1, 2, 3, 4, 5, 6, 7, 8, 9, 10, 11, 12]
      (by decide) (by decide) (by decide) (by decide)).2.1]
    decide⟩

/-- C5, the code at a failing input: header CWS, version 6, `fileLength` 11 and
a body that is no zlib stream.  The decompressor reports `MZ_DATA_ERROR`, the
diagnostic is printed, and the job goes on: it returns after writing an
output file made of the header and the compressed contents of the untouched
destination block (three zero bytes). -/
theorem compressFile_decompress_error_writes_output :
    (inflated toyEnv [0x43, 0x57, 0x53, 6, 11, 0, 0, 0, 0x78, 0xDB, 1, 2, 3]).ret ≠ MZ_OK ∧
    (CompressFile toyEnv ⟨0, 15⟩
        (worldOf [("bad.swf", [0x43, 0x57, 0x53, 6, 11, 0, 0, 0, 0x78, 0xDB, 1, 2, 3])])
        "bad.swf" "bad.swf.zopfli").status = Status.returned ∧
    (CompressFile toyEnv ⟨0, 15⟩
        (worldOf [("bad.swf", [0x43, 0x57, 0x53, 6, 11, 0, 0, 0, 0x78, 0xDB, 1, 2, 3])])
        "bad.swf" "bad.swf.zopfli").stderr = ["Failed to uncompress zlib data: data error\n"] ∧
    (worldOf [("bad.swf", [0x43, 0x57, 0x53, 6, 11, 0, 0, 0, 0x78, 0xDB, 1, 2, 3])]).files
        "bad.swf.zopfli" = none ∧
    (CompressFile toyEnv ⟨0, 15⟩
        (worldOf [("bad.swf", [0x43, 0x57, 0x53, 6, 11, 0, 0, 0, 0x78, 0xDB, 1, 2, 3])])
        "bad.swf" "bad.swf.zopfli").world.files "bad.swf.zopfli"
      = some [0x43, 0x57, 0x53, 6, 11, 0, 0, 0, 0x78, 0xDA, 0, 0, 0] := by
  decide

/-- C6 fails as stated: header FWS, version 6, `fileLength` 3 (below the header
size 8), body 1, 2, 3.  No header error is raised: the job returns without a
diagnostic and the output file is written, and `fileLength - 8` was computed
with wrap-around, to `2 ^ 64 - 5`. -/
theorem compressFile_short_fileLength_counterexample :
    (headerOf [0x46, 0x57, 0x53, 6, 3, 0, 0, 0, 1, 2, 3]).fileLength toyEnv < sizeofSWFHeader ∧
    initialWrkSize toyEnv (headerOf [0x46, 0x57, 0x53, 6, 3, 0, 0, 0, 1, 2, 3]) = 2 ^ 64 - 5 ∧
    (CompressFile toyEnv ⟨0, 15⟩
        (worldOf [("s.swf", [0x46, 0x57, 0x53, 6, 3, 0, 0, 0, 1, 2, 3])])
        "s.swf" "s.swf.zopfli").status = Status.returned ∧
    (CompressFile toyEnv ⟨0, 15⟩
        (worldOf [("s.swf", [0x46, 0x57, 0x53, 6, 3, 0, 0, 0, 1, 2, 3])])
        "s.swf" "s.swf.zopfli").stderr = [] ∧
    (CompressFile toyEnv ⟨0, 15⟩
        (worldOf [("s.swf", [0x46, 0x57, 0x53, 6, 3, 0, 0, 0, 1, 2, 3])])
        "s.swf" "s.swf.zopfli").world.files "s.swf.zopfli"
      = some [0x43, 0x57, 0x53, 6, 3, 0, 0, 0, 0x78, 0xDA, 1, 2, 3] := by
  decide

/-- C6 as amended: for every input with byte 0 equal to F, version at least 6
and at least 8 bytes whose header declares a `fileLength` below 8, on a target
whose `size_t` can hold 8, no header error is raised: when the destination
opens the job returns without a diagnostic and writes the byte C, input
bytes 1..7 and `compress(input[8 ..])`; the initial `wrkSize`,
`fileLength - 8`, is computed with unsigned wrap-around, to
`2 ^ sizeBits - (8 - fileLength)`, and is not used on this path. -/
theorem compressFile_uncompressed_ignores_fileLength (env : Env) (options : Options)
    (w : World) (infilename outfilename : String) (inp : List Byte)
    (hfile : w.files infilename = some inp) (hlen : 8 ≤ inp.length)
    (hsig : inp.getD 0 0 = chF) (hver : 6 ≤ inp.getD 3 0)
    (hopen : w.writable outfilename = true)
    (hdecl : (headerOf inp).fileLength env < sizeofSWFHeader)
    (hbits : sizeofSWFHeader ≤ 2 ^ env.sizeBits) :
    initialWrkSize env (headerOf inp)
      = 2 ^ env.sizeBits - (sizeofSWFHeader - (headerOf inp).fileLength env) ∧
    (CompressFile env options w infilename outfilename).status = Status.returned ∧
    (CompressFile env options w infilename outfilename).stderr = [] ∧
    (CompressFile env options w infilename outfilename).world.files outfilename
      = some (chC :: (inp.drop 1).take 7 ++ env.ZlibCompress options (inp.drop 8)) := by
  rw [CompressFile_uncompressed_effect env options w infilename outfilename inp hfile hlen hsig
    hver hopen]
  exact ⟨sizeSub_wrap _ _ _ hdecl hbits, rfl, rfl, World.write_files_same _ _ _⟩

/-- C6 as amended, at header FWS, version 6, `fileLength` 0 and body 9, 9. -/
theorem compressFile_uncompressed_ignores_fileLength_witness :
    initialWrkSize toyEnv (headerOf [0x46, 0x57, 0x53, 6, 0, 0, 0, 0, 9, 9])
      = 2 ^ toyEnv.sizeBits
          - (sizeofSWFHeader - (headerOf [0x46, 0x57, 0x53, 6, 0, 0, 0, 0, 9, 9]).fileLength toyEnv) ∧
    (CompressFile toyEnv ⟨0, 15⟩ (worldOf [("z.swf", [0x46, 0x57, 0x53, 6, 0, 0, 0, 0, 9, 9])])
        "z.swf" "z.swf.zopfli").status = Status.returned ∧
    (CompressFile toyEnv ⟨0, 15⟩ (worldOf [("z.swf", [0x46, 0x57, 0x53, 6, 0, 0, 0, 0, 9, 9])])
        "z.swf" "z.swf.zopfli").stderr = [] ∧
    (CompressFile toyEnv ⟨0, 15⟩ (worldOf [("z.swf", [0x46, 0x57, 0x53, 6, 0, 0, 0, 0, 9, 9])])
        "z.swf" "z.swf.zopfli").world.files "z.swf.zopfli"
      = some (chC :: ([0x46, 0x57, 0x53, 6, 0, 0, 0, 0, 9, 9].drop 1).take 7
          ++ toyEnv.ZlibCompress ⟨0, 15⟩ ([0x46, 0x57, 0x53, 6, 0, 0, 0, 0, 9, 9].drop 8)) :=
  compressFile_uncompressed_ignores_fileLength toyEnv ⟨0, 15⟩
    (worldOf [("z.swf", [0x46, 0x57, 0x53, 6, 0, 0, 0, 0, 9, 9])]) "z.swf" "z.swf.zopfli"
    [0x46, 0x57, 0x53, 6, 0, 0, 0, 0, 9, 9]
    (by decide) (by decide) (by decide) (by decide) (by decide) (by decide) (by decide)

/-- C7, the code at a failing input: the seven bytes FWS, 6, 20, 0, 0.  There is
no length check: the header read takes its eighth byte from behind the
buffer, `insize - 8` is computed and wraps to `2 ^ 64 - 1`, the output file is
created, and the body read for the compressor leaves the readable memory. -/
theorem compressFile_truncated_input_reads_past_end :
    [0x46, 0x57, 0x53, 6, 20, 0, 0].length < sizeofSWFHeader ∧
    readHeader (LoadFile toyEnv (worldOf [("t.swf", [0x46, 0x57, 0x53, 6, 20, 0, 0])]) "t.swf").1
      = some ⟨0x46, 0x57, 0x53, 6, 20, 0, 0, 0⟩ ∧
    sizeSub toyEnv.sizeBits [0x46, 0x57, 0x53, 6, 20, 0, 0].length sizeofSWFHeader = 2 ^ 64 - 1 ∧
    (worldOf [("t.swf", [0x46, 0x57, 0x53, 6, 20, 0, 0])]).files "t.swf.zopfli" = none ∧
    (CompressFile toyEnv ⟨0, 15⟩ (worldOf [("t.swf", [0x46, 0x57, 0x53, 6, 20, 0, 0])])
        "t.swf" "t.swf.zopfli").world.files "t.swf.zopfli" ≠ none ∧
    (CompressFile toyEnv ⟨0, 15⟩ (worldOf [("t.swf", [0x46, 0x57, 0x53, 6, 20, 0, 0])])
        "t.swf" "t.swf.zopfli").stderr = [] ∧
    (CompressFile toyEnv ⟨0, 15⟩ (worldOf [("t.swf", [0x46, 0x57, 0x53, 6, 20, 0, 0])])
        "t.swf" "t.swf.zopfli").status = Status.outOfBounds := by
  decide

/-- C10: the transform is idempotent on well-formed files.  Let `x` be an
accepted input (at least 8 bytes, byte 0 is F or C, version at least 6) whose
`fileLength` is at least 8 plus the length of its raw body, let the block
`malloc(fileLength - 8)` have the size asked for, and let the decompressor
give back `b` from `compress(b)` whenever the bound is at least the length of
`b`.  Then the first job returns and writes a file `y` that is itself
accepted with byte 0 equal to C, and `CompressFile` run on `y`, in any world
in which the destination opens, returns without a diagnostic and writes
exactly `y` again. -/
theorem compressFile_idempotent (env : Env) (options : Options) (w : World)
    (infilename outfilename : String) (x : List Byte)
    (hfile : w.files infilename = some x) (hlen : 8 ≤ x.length)
    (hsig : x.getD 0 0 = chF ∨ x.getD 0 0 = chC) (hver : 6 ≤ x.getD 3 0)
    (hopen : w.writable outfilename = true)
    (hbuf : x.getD 0 0 = chC → (inflated env x).destLen ≤ (inflated env x).dest.length)
    (hdecl : 8 + (rawBody env x).length ≤ (headerOf x).fileLength env)
    (hmalloc : (env.malloc ((headerOf x).fileLength env - 8)).length
      = (headerOf x).fileLength env - 8)
    (hdec : ∀ (dest : List Byte) (bound : Nat) (b : List Byte),
      b.length ≤ bound → bound ≤ dest.length →
        (env.mz_uncompress dest bound (env.ZlibCompress options b)).ret = MZ_OK ∧
        (env.mz_uncompress dest bound (env.ZlibCompress options b)).destLen = b.length ∧
        (env.mz_uncompress dest bound (env.ZlibCompress options b)).dest.take b.length = b) :
    (CompressFile env options w infilename outfilename).status = Status.returned ∧
    ∃ y, (CompressFile env options w infilename outfilename).world.files outfilename = some y ∧
      8 ≤ y.length ∧ y.getD 0 0 = chC ∧ 6 ≤ y.getD 3 0 ∧
      ∀ (w2 : World) (infilename2 outfilename2 : String),
        w2.files infilename2 = some y → w2.writable outfilename2 = true →
        CompressFile env options w2 infilename2 outfilename2
          = ⟨Status.returned, [], w2.write outfilename2 y⟩ := by
  have hFC : chF ≠ chC := by decide
  -- the first run writes the header and the compressed raw body
  have hrun : CompressFile env options w infilename outfilename
      = ⟨Status.returned,
          (if x.getD 0 0 = chC ∧ (inflated env x).ret ≠ MZ_OK then
            ["Failed to uncompress zlib data: " ++ env.mz_error (inflated env x).ret ++ "\n"]
           else []),
          w.write outfilename
            (chC :: (x.drop 1).take 7 ++ env.ZlibCompress options (rawBody env x))⟩ := by
    rcases hsig with hF | hC
    · have hnC : x.getD 0 0 ≠ chC := by
        rw [hF]
        exact hFC
      have hrb : rawBody env x = x.drop 8 := by
        unfold rawBody
        rw [if_neg hnC]
        rfl
      rw [CompressFile_uncompressed_effect env options w infilename outfilename x hfile hlen hF
        hver hopen, hrb, if_neg (fun h => hnC h.1)]
    · have hrb : rawBody env x
          = (inflated env x).dest.take (inflated env x).destLen := by
        unfold rawBody
        rw [if_pos hC]
      rw [CompressFile_compressed_effect env options w infilename outfilename x hfile hlen hC
        hver hopen (hbuf hC), hrb]
      by_cases hr : (inflated env x).ret ≠ MZ_OK
      · rw [if_pos hr, if_pos ⟨hC, hr⟩]
      · rw [if_neg hr, if_neg (fun h => hr h.2)]
  obtain ⟨hy8, hy0, hy3, hy17, hydrop, hyfl⟩ :=
    output_shape x (env.ZlibCompress options (rawBody env x)) hlen
  rw [hrun]
  refine ⟨rfl, _, World.write_files_same _ _ _, hy8, hy0, ?_, ?_⟩
  · rw [hy3]
    exact hver
  · intro w2 infilename2 outfilename2 hfile2 hopen2
    have hy3v : 6 ≤ (chC :: (x.drop 1).take 7
        ++ env.ZlibCompress options (rawBody env x)).getD 3 0 := by
      rw [hy3]
      exact hver
    -- the decompressor call of the second run
    have hinfl : inflated env (chC :: (x.drop 1).take 7
          ++ env.ZlibCompress options (rawBody env x))
        = env.mz_uncompress (env.malloc ((headerOf x).fileLength env - 8))
            ((headerOf x).fileLength env - 8) (env.ZlibCompress options (rawBody env x)) := by
      have hs : sizeofSWFHeader = 8 := rfl
      simp only [inflated, initialWrkSize]
      rw [hyfl env, hs, hydrop, sizeSub_of_le _ _ _ (by omega)]
    obtain ⟨hret, hdl, htake⟩ := hdec (env.malloc ((headerOf x).fileLength env - 8))
      ((headerOf x).fileLength env - 8) (rawBody env x) (by omega) (by rw [hmalloc])
    have hbuf2 : (inflated env (chC :: (x.drop 1).take 7
          ++ env.ZlibCompress options (rawBody env x))).destLen
        ≤ (inflated env (chC :: (x.drop 1).take 7
          ++ env.ZlibCompress options (rawBody env x))).dest.length := by
      rw [hinfl, hdl]
      have := congrArg List.length htake
      rw [List.length_take] at this
      omega
    rw [CompressFile_compressed_effect env options w2 infilename2 outfilename2 _ hfile2 hy8 hy0
      hy3v hopen2 hbuf2, hinfl, hret, hdl, htake, hy17]
    simp

/-- C10 at header FWS, version 6, `fileLength` 20 and the twelve bytes 1..12:
the first job writes `y`, and the job run on `y` writes `y` again. -/
theorem compressFile_idempotent_witness :
    (CompressFile toyEnv ⟨0, 15⟩
        (worldOf [("movie.swf", [0x46, 0x57, 0x53, 6, 20, 0, 0, 0, 1, 2, 3, 4, 5, 6, 7, 8, 9, 10, 11, 12])])
        "movie.swf" "movie.swf.zopfli").world.files "movie.swf.zopfli"
      = some [0x43, 0x57, 0x53, 6, 20, 0, 0, 0, 0x78, 0xDA, 1, 2, 3, 4, 5, 6, 7, 8, 9, 10, 11, 12] ∧
    (CompressFile toyEnv ⟨0, 15⟩
        (worldOf [("y.swf", [0x43, 0x57, 0x53, 6, 20, 0, 0, 0, 0x78, 0xDA, 1, 2, 3, 4, 5, 6, 7, 8, 9, 10, 11, 12])])
        "y.swf" "y.swf.zopfli").world.files "y.swf.zopfli"
      = some [0x43, 0x57, 0x53, 6, 20, 0, 0, 0, 0x78, 0xDA, 1, 2, 3, 4, 5, 6, 7, 8, 9, 10, 11, 12] := by
  have h := compressFile_idempotent toyEnv ⟨0, 15⟩
    (worldOf [("movie.swf", [0x46, 0x57, 0x53, 6, 20, 0, 0, 0, 1, 2, 3, 4, 5, 6, 7, 8, 9, 10, 11, 12])])
    "movie.swf" "movie.swf.zopfli"
    [0x46, 0x57, 0x53, 6, 20, 0, 0, 0, 1, 2, 3, 4, 5, 6, 7, 8, 9, 10, 11, 12]
    (by decide) (by decide) (by decide) (by decide) (by decide) (by decide) (by decide)
    (by decide)
    (by
      intro dest bound b hb hd
      have hd2 : b.length ≤ dest.length := Nat.le_trans hb hd
      simp [toyEnv, toyCompress, toyUncompress, hb, hd, MZ_OK])
  obtain ⟨_, y, hy, _, _, _, hidem⟩ := h
  have hy2 : y = [0x43, 0x57, 0x53, 6, 20, 0, 0, 0, 0x78, 0xDA, 1, 2, 3, 4, 5, 6, 7, 8, 9, 10, 11, 12] := by
    have h1 : (CompressFile toyEnv ⟨0, 15⟩
        (worldOf [("movie.swf", [0x46, 0x57, 0x53, 6, 20, 0, 0, 0, 1, 2, 3, 4, 5, 6, 7, 8, 9, 10, 11, 12])])
        "movie.swf" "movie.swf.zopfli").world.files "movie.swf.zopfli"
      = some [0x43, 0x57, 0x53, 6, 20, 0, 0, 0, 0x78, 0xDA, 1, 2, 3, 4, 5, 6, 7, 8, 9, 10, 11, 12] := by
      decide
    rw [hy] at h1
    exact Option.some.inj h1
  subst hy2
  refine ⟨hy, ?_⟩
  rw [hidem (worldOf [("y.swf", [0x43, 0x57, 0x53, 6, 20, 0, 0, 0, 0x78, 0xDA, 1, 2, 3, 4, 5, 6, 7, 8, 9, 10, 11, 12])])
    "y.swf" "y.swf.zopfli" (by decide) (by decide)]
  exact World.write_files_same _ _ _

/-- A directory among the arguments: `fopen` opens it, `ftell` reports a size
for which `malloc` fails, and `LoadFile` hands back the null buffer with that
size.  The header read in `CompressFile` then leaves the readable memory, and
the file named after the directory is never attempted. -/
theorem main_dies_on_directory :
    LoadFile tightEnv
        ((worldOf [("ok.swf", [0x46, 0x57, 0x53, 6, 11, 0, 0, 0, 1, 2, 3])]).withDirectory
          "d.swf" (2 ^ 63 - 1)) "d.swf" = ([], 2 ^ 63 - 1) ∧
    (main tightEnv
        ((worldOf [("ok.swf", [0x46, 0x57, 0x53, 6, 11, 0, 0, 0, 1, 2, 3])]).withDirectory
          "d.swf" (2 ^ 63 - 1))
        "swf-zopfli" ["d.swf", "ok.swf"]).exit = Exit.died Status.outOfBounds ∧
    (main tightEnv
        ((worldOf [("ok.swf", [0x46, 0x57, 0x53, 6, 11, 0, 0, 0, 1, 2, 3])]).withDirectory
          "d.swf" (2 ^ 63 - 1))
        "swf-zopfli" ["d.swf", "ok.swf"]).names = [("d.swf", "d.swf.zopfli")] := by
  decide

/-- C8 fails as stated: the argument list `a.swf`, `b.swf` holds no `-h` and two
file names, `a.swf` is a valid uncompressed file, and its destination
`a.swf.zopfli` cannot be opened.  The job for `a.swf` fails at `assert(file)`,
which ends the process: the job for `b.swf` is never attempted. -/
theorem main_skips_files_after_abort_counterexample :
    "-h" ∉ ["a.swf", "b.swf"] ∧
    fileJobs ["a.swf", "b.swf"] = [("a.swf", "a.swf.zopfli"), ("b.swf", "b.swf.zopfli")] ∧
    (main toyEnv
        ((worldOf [("a.swf", [0x46, 0x57, 0x53, 6, 11, 0, 0, 0, 1, 2, 3]),
                   ("b.swf", [0x46, 0x57, 0x53, 6, 11, 0, 0, 0, 4, 5, 6])]).lock "a.swf.zopfli")
        "swf-zopfli" ["a.swf", "b.swf"]).names = [("a.swf", "a.swf.zopfli")] ∧
    (main toyEnv
        ((worldOf [("a.swf", [0x46, 0x57, 0x53, 6, 11, 0, 0, 0, 1, 2, 3]),
                   ("b.swf", [0x46, 0x57, 0x53, 6, 11, 0, 0, 0, 4, 5, 6])]).lock "a.swf.zopfli")
        "swf-zopfli" ["a.swf", "b.swf"]).exit = Exit.died Status.assertFailed ∧
    (main toyEnv
        ((worldOf [("a.swf", [0x46, 0x57, 0x53, 6, 11, 0, 0, 0, 1, 2, 3]),
                   ("b.swf", [0x46, 0x57, 0x53, 6, 11, 0, 0, 0, 4, 5, 6])]).lock "a.swf.zopfli")
        "swf-zopfli" ["a.swf", "b.swf"]).world.files "b.swf.zopfli" = none := by
  decide

/-- C8 as amended: for every argument list without `-h`, in every environment
and world, the calls of `CompressFile` that `main` makes are an initial
segment of the list with one call (P, P followed by `.zopfli`) per argument P
that does not begin with a dash, in argument order.  When every output name
is allocated and every call that `main` makes returns, the list is complete:
each job is attempted whether or not an earlier job printed a failure
diagnostic; the output path never equals the input path and no argument
beginning with a dash is an input path. -/
theorem main_runs_every_file (env : Env) (w : World) (argv0 : String) (args : List String)
    (hh : "-h" ∉ args)
    (hnames : ∀ a ∈ args, firstChar a ≠ '-' → AddStrings env a ".zopfli" ≠ none)
    (hret : ∀ c ∈ (main env w argv0 args).calls, c.effect.status = Status.returned) :
    (main env w argv0 args).names
      = (args.filter (fun a => decide (firstChar a ≠ '-'))).map (fun a => (a, a ++ ".zopfli")) ∧
    (∀ p ∈ (main env w argv0 args).names,
      p.2 = p.1 ++ ".zopfli" ∧ p.2 ≠ p.1 ∧ firstChar p.1 ≠ '-') ∧
    (∀ (env1 : Env) (w1 : World), ∃ k, (main env1 w1 argv0 args).names
      = ((args.filter (fun a => decide (firstChar a ≠ '-'))).map
          (fun a => (a, a ++ ".zopfli"))).take k) := by
  have hnames_eq : (main env w argv0 args).names = fileJobs args := by
    unfold main at hret ⊢
    cases hp : parseFlags env.InitOptions args with
    | none => exact absurd hp (parseFlags_of_no_help args hh _)
    | some options =>
      rw [hp] at hret
      have := (runFiles_complete env options argv0 args w [] [] none hnames hret).2
      rw [List.map_nil, List.nil_append] at this
      exact this
  refine ⟨hnames_eq, ?_, ?_⟩
  · intro p hp
    rw [hnames_eq] at hp
    simp only [fileJobs, List.mem_map, List.mem_filter, decide_eq_true_eq] at hp
    obtain ⟨a, ⟨_, hflag⟩, rfl⟩ := hp
    exact ⟨rfl, append_ne_self a, hflag⟩
  · intro env1 w1
    unfold main
    cases hp : parseFlags env1.InitOptions args with
    | none => exact absurd hp (parseFlags_of_no_help args hh _)
    | some options =>
      obtain ⟨k, hk⟩ := runFiles_calls_initial env1 options argv0 args w1 [] [] none
      rw [List.map_nil, List.nil_append] at hk
      exact ⟨k, hk⟩

/-- C8 as amended, at a run whose first three jobs fail with a diagnostic (a
missing file, an unsupported signature, a stream that does not decompress)
and whose fourth job is still attempted. -/
theorem main_runs_every_file_witness :
    (main toyEnv
        (worldOf [("x.swf", [0x5A, 0x57, 0x53, 6, 11, 0, 0, 0, 1, 2, 3]),
                  ("bad.swf", [0x43, 0x57, 0x53, 6, 11, 0, 0, 0, 0x78, 0xDB, 1, 2, 3]),
                  ("ok.swf", [0x46, 0x57, 0x53, 6, 11, 0, 0, 0, 1, 2, 3])])
        "swf-zopfli" ["missing.swf", "-v", "x.swf", "--i5", "bad.swf", "-x", "ok.swf"]).names
      = [("missing.swf", "missing.swf.zopfli"), ("x.swf", "x.swf.zopfli"),
         ("bad.swf", "bad.swf.zopfli"), ("ok.swf", "ok.swf.zopfli")] := by
  have h := (main_runs_every_file toyEnv
    (worldOf [("x.swf", [0x5A, 0x57, 0x53, 6, 11, 0, 0, 0, 1, 2, 3]),
              ("bad.swf", [0x43, 0x57, 0x53, 6, 11, 0, 0, 0, 0x78, 0xDB, 1, 2, 3]),
              ("ok.swf", [0x46, 0x57, 0x53, 6, 11, 0, 0, 0, 1, 2, 3])])
    "swf-zopfli" ["missing.swf", "-v", "x.swf", "--i5", "bad.swf", "-x", "ok.swf"]
    (by decide) (fun a _ _ => by rw [toyEnv_AddStrings]; exact Option.some_ne_none _)
    (by decide)).1
  rw [h]
  decide

/-- C9 fails as stated.  First, `a.swf` is a valid uncompressed file whose
destination `a.swf.zopfli` cannot be opened: the job does not end in a
diagnostic and a return, `assert(file)` fails inside `CompressFile` and the
process is aborted instead of ending with exit status 0.  Second, when the
block for the output name cannot be allocated, `AddStrings` ends the process
with `exit(-1)`. -/
theorem main_aborts_on_unwritable_destination_counterexample :
    ((worldOf [("a.swf", [0x46, 0x57, 0x53, 6, 11, 0, 0, 0, 1, 2, 3])]).lock
        "a.swf.zopfli").writable "a.swf.zopfli" = false ∧
    (CompressFile toyEnv toyEnv.InitOptions
        ((worldOf [("a.swf", [0x46, 0x57, 0x53, 6, 11, 0, 0, 0, 1, 2, 3])]).lock "a.swf.zopfli")
        "a.swf" "a.swf.zopfli").status = Status.assertFailed ∧
    (main toyEnv
        ((worldOf [("a.swf", [0x46, 0x57, 0x53, 6, 11, 0, 0, 0, 1, 2, 3])]).lock "a.swf.zopfli")
        "swf-zopfli" ["a.swf"]).exit = Exit.died Status.assertFailed ∧
    (main toyEnv
        ((worldOf [("a.swf", [0x46, 0x57, 0x53, 6, 11, 0, 0, 0, 1, 2, 3])]).lock "a.swf.zopfli")
        "swf-zopfli" ["a.swf"]).exit ≠ Exit.code 0 ∧
    (main noMemoryEnv (worldOf [("a.swf", [0x46, 0x57, 0x53, 6, 11, 0, 0, 0, 1, 2, 3])])
        "swf-zopfli" ["a.swf"]).exit = Exit.code (-1) := by
  decide

/-- C9 as amended: for every argument list, with or without `-h`, if every
output name is allocated and every call of `CompressFile` that `main` makes
returns, then `main` returns 0; without `-h` it has made one call per
argument that does not begin with a dash; and every failure of a call is
reported on the diagnostic stream of the run and nowhere else:
* every diagnostic line of the call is on the stream of the run;
* an input for which `LoadFile` reports size 0 (it cannot be opened or read,
  or it is empty) gives the one line `Invalid filename` and leaves the world
  as it was;
* a non-empty input with a byte 0 other than F and C, or with a version byte
  below 6, gives the one line for its case and leaves the world as it was;
* an accepted compressed input on which the decompressor reports an error
  gives the one line `Failed to uncompress zlib data`. -/
theorem main_exit_status_zero (env : Env) (w : World) (argv0 : String) (args : List String)
    (hnames : ∀ a ∈ args, firstChar a ≠ '-' → AddStrings env a ".zopfli" ≠ none)
    (hret : ∀ c ∈ (main env w argv0 args).calls, c.effect.status = Status.returned) :
    (main env w argv0 args).exit = Exit.code 0 ∧
    ("-h" ∉ args →
      (main env w argv0 args).names
        = (args.filter (fun a => decide (firstChar a ≠ '-'))).map
            (fun a => (a, a ++ ".zopfli"))) ∧
    ∀ c ∈ (main env w argv0 args).calls,
      c.effect.stderr ⊆ (main env w argv0 args).stderr ∧
      ((LoadFile env c.before c.infilename).2 = 0 →
        c.effect.stderr = ["Invalid filename: " ++ c.infilename ++ "\n"] ∧
        c.effect.world = c.before) ∧
      (∀ inp, c.before.files c.infilename = some inp → inp ≠ [] →
        ((inp.getD 0 0 ≠ chF ∧ inp.getD 0 0 ≠ chC) ∨ (inp ++ env.slack).getD 3 0 < 6) →
        c.effect.stderr =
          [if inp.getD 0 0 = chF ∨ inp.getD 0 0 = chC then
              "SWF version must be equal or greater than 6\n"
            else
              "Unsupported SWF signature: " ++ String.singleton (Char.ofNat (inp.getD 0 0)) ++ "\n"] ∧
        c.effect.world = c.before) ∧
      (∀ inp, c.before.files c.infilename = some inp → 8 ≤ inp.length →
        inp.getD 0 0 = chC → 6 ≤ inp.getD 3 0 → (inflated env inp).ret ≠ MZ_OK →
        c.effect.stderr =
          ["Failed to uncompress zlib data: " ++ env.mz_error (inflated env inp).ret ++ "\n"]) := by
  cases hp : parseFlags env.InitOptions args with
  | none =>
    have hmain : main env w argv0 args = ⟨Exit.code 0, [usageText], [], w⟩ := by
      simp only [main, hp]
    rw [hmain]
    refine ⟨rfl, ?_, ?_⟩
    · intro hh
      exact absurd hp (parseFlags_of_no_help args hh _)
    · intro c hc
      cases hc
  | some options =>
    have hmain : main env w argv0 args = runFiles env options argv0 args w [] [] none := by
      simp only [main, hp]
    rw [hmain] at hret ⊢
    obtain ⟨hexit, hall⟩ := runFiles_complete env options argv0 args w [] [] none hnames hret
    rw [List.map_nil, List.nil_append] at hall
    refine ⟨hexit, fun _ => hall, ?_⟩
    intro c hc
    obtain ⟨heff, hsub⟩ := runFiles_trace env options argv0 args w [] [] none
      (by
        intro c hc
        cases hc) c hc
    have hst := hret c hc
    refine ⟨hsub, ?_, ?_, ?_⟩
    · intro h0
      rw [heff, CompressFile_unreadable env options c.before c.infilename c.outfilename h0]
      exact ⟨rfl, rfl⟩
    · intro inp hfile hne hrej
      have hmem : 8 ≤ (inp ++ env.slack).length := by
        by_contra hmem
        have := CompressFile_header_fault env options c.before c.infilename c.outfilename inp
          hfile hne hmem
        rw [← heff, hst] at this
        cases this
      rw [heff, CompressFile_rejected env options c.before c.infilename c.outfilename inp hfile
        hne hmem hrej]
      exact ⟨rfl, rfl⟩
    · intro inp hfile hlen hsig hver hbad
      rw [heff, CompressFile_compressed env options c.before c.infilename c.outfilename inp hfile
        hlen hsig hver, writeOutput_stderr, if_pos hbad]

/-- C9 as amended, at a run with a missing file, an empty file, a file with
version 5, a file with signature Z and a stream that does not decompress:
`main` returns 0 after five calls and the five diagnostics. -/
theorem main_exit_status_zero_witness :
    (main toyEnv
        (worldOf [("empty.swf", []),
                  ("v5.swf", [0x46, 0x57, 0x53, 5, 11, 0, 0, 0, 1, 2, 3]),
                  ("z.swf", [0x5A, 0x57, 0x53, 6, 11, 0, 0, 0, 1, 2, 3]),
                  ("bad.swf", [0x43, 0x57, 0x53, 6, 11, 0, 0, 0, 0x78, 0xDB, 1, 2, 3])])
        "swf-zopfli" ["missing.swf", "empty.swf", "v5.swf", "z.swf", "bad.swf"]).exit
      = Exit.code 0 ∧
    (main toyEnv
        (worldOf [("empty.swf", []),
                  ("v5.swf", [0x46, 0x57, 0x53, 5, 11, 0, 0, 0, 1, 2, 3]),
                  ("z.swf", [0x5A, 0x57, 0x53, 6, 11, 0, 0, 0, 1, 2, 3]),
                  ("bad.swf", [0x43, 0x57, 0x53, 6, 11, 0, 0, 0, 0x78, 0xDB, 1, 2, 3])])
        "swf-zopfli" ["missing.swf", "empty.swf", "v5.swf", "z.swf", "bad.swf"]).calls.length
      = 5 ∧
    (main toyEnv
        (worldOf [("empty.swf", []),
                  ("v5.swf", [0x46, 0x57, 0x53, 5, 11, 0, 0, 0, 1, 2, 3]),
                  ("z.swf", [0x5A, 0x57, 0x53, 6, 11, 0, 0, 0, 1, 2, 3]),
                  ("bad.swf", [0x43, 0x57, 0x53, 6, 11, 0, 0, 0, 0x78, 0xDB, 1, 2, 3])])
        "swf-zopfli" ["missing.swf", "empty.swf", "v5.swf", "z.swf", "bad.swf"]).stderr
      = ["Invalid filename: missing.swf\n", "Invalid filename: empty.swf\n",
         "SWF version must be equal or greater than 6\n", "Unsupported SWF signature: Z\n",
         "Failed to uncompress zlib data: data error\n"] :=
  ⟨(main_exit_status_zero toyEnv
      (worldOf [("empty.swf", []),
                ("v5.swf", [0x46, 0x57, 0x53, 5, 11, 0, 0, 0, 1, 2, 3]),
                ("z.swf", [0x5A, 0x57, 0x53, 6, 11, 0, 0, 0, 1, 2, 3]),
                ("bad.swf", [0x43, 0x57, 0x53, 6, 11, 0, 0, 0, 0x78, 0xDB, 1, 2, 3])])
      "swf-zopfli" ["missing.swf", "empty.swf", "v5.swf", "z.swf", "bad.swf"]
      (fun a _ _ => by rw [toyEnv_AddStrings]; exact Option.some_ne_none _)
      (by decide)).1,
   by decide, by decide⟩

end SwfZopfli
